import Mathlib

/-!
Shallow embedding of `tools/bench.py`, the benchmark execution-and-aggregation
engine: metric extraction from raw text (`parse_mean_std` and its regex
helpers), per-variant command resolution and execution (`run_variant`),
derived-metric computation and record construction (the per-task body of
`main`), and the idempotent store upsert (`upsert_result`).

Modelling conventions:
* Python floats are modelled as exact rationals (`ℚ`).  All numeric literals
  appearing in the claims are exactly representable, and every comparison the
  claims exercise is orders of magnitude away from binary64 rounding error.
* Python regexes are translated to executable character-list matchers that
  reproduce the scanning, alternation-order, greediness and word-boundary
  behaviour of the three patterns in the source (`RE_MEAN`, `RE_STD`,
  `RE_PERF_BLOCK`).
* Python `None`/missing dict entries become `Option`; string truthiness
  (`not s`) becomes "`none` or empty string".
* The external shell invocation is an oracle `exec : String → String`
  (command text in, combined stdout/stderr text out); the commands actually
  executed are recorded in the outcome so that "no execution happened" is a
  provable statement.
-/

namespace Bench

/-- Word character for the regex `\b` boundary: `[A-Za-z0-9_]`. -/
def isWordChar (c : Char) : Bool :=
  c.isAlpha || c.isDigit || c == '_'

/-- Whitespace for the regex `\s` class: space, tab, newline, CR, FF, VT. -/
def isSpaceChar (c : Char) : Bool :=
  c == ' ' || c == '\t' || c == '\n' || c == '\r' || c == '\x0b' || c == '\x0c'

/-- Case-insensitive literal match: pattern `p` (given lowercase) against the
head of `cs`; returns the remainder on success.  Implements the `(?i)` literal
parts of the source regexes. -/
def litCI : List Char → List Char → Option (List Char)
  | [], cs => some cs
  | _ :: _, [] => none
  | p :: ps, c :: cs => if c.toLower == p then litCI ps cs else none

/-- Word boundary `\b` immediately before a word character: holds when there is
no previous character or the previous character is not a word character. -/
def boundaryOK : Option Char → Bool
  | none => true
  | some c => !isWordChar c

/-- Word boundary `\b` immediately after a word character: the next character
must be absent or not a word character. -/
def labelEnd (rest : List Char) : Bool :=
  match rest.head? with
  | none => true
  | some c => !isWordChar c

/-- One-or-more whitespace (`\s+`), greedy. -/
def skipWs1 : List Char → Option (List Char)
  | [] => none
  | c :: rest => if isSpaceChar c then some (rest.dropWhile isSpaceChar) else none

/-- Lexer for the source's FLOAT pattern
`([+-]?(?:\d+\.\d+|\d+|\.\d+)(?:[eE][+-]?\d+)?)`, following the regex's
alternation order and greediness.  Returns the matched literal and the rest. -/
def floatLex (cs : List Char) : Option (List Char × List Char) :=
  let sgn : List Char × List Char :=
    match cs with
    | c :: rest => if c == '+' || c == '-' then ([c], rest) else ([], cs)
    | [] => ([], cs)
  let cs1 := sgn.2
  let ds1 := cs1.takeWhile (fun c => c.isDigit)
  let r1 := cs1.dropWhile (fun c => c.isDigit)
  let mant : Option (List Char × List Char) :=
    if ds1.isEmpty then
      match cs1 with
      | '.' :: r2 =>
        let ds2 := r2.takeWhile (fun c => c.isDigit)
        if ds2.isEmpty then none
        else some ('.' :: ds2, r2.dropWhile (fun c => c.isDigit))
      | _ => none
    else
      match r1 with
      | '.' :: r2 =>
        let ds2 := r2.takeWhile (fun c => c.isDigit)
        if ds2.isEmpty then some (ds1, r1)
        else some (ds1 ++ '.' :: ds2, r2.dropWhile (fun c => c.isDigit))
      | _ => some (ds1, r1)
  match mant with
  | none => none
  | some (m, rest) =>
    match rest with
    | e :: r2 =>
      if e == 'e' || e == 'E' then
        let es : List Char × List Char :=
          match r2 with
          | c :: r3 => if c == '+' || c == '-' then ([c], r3) else ([], r2)
          | [] => ([], r2)
        let ds := es.2.takeWhile (fun c => c.isDigit)
        if ds.isEmpty then some (sgn.1 ++ m, rest)
        else some (sgn.1 ++ m ++ e :: es.1 ++ ds, es.2.dropWhile (fun c => c.isDigit))
      else some (sgn.1 ++ m, rest)
    | [] => some (sgn.1 ++ m, rest)

/-- The `\s*[:=]\s*FLOAT` tail shared by both label regexes.  Returns the float
capture and the remainder of the text. -/
def sepFloat (cs : List Char) : Option (List Char × List Char) :=
  match cs.dropWhile isSpaceChar with
  | c :: r2 => if c == ':' || c == '=' then floatLex (r2.dropWhile isSpaceChar) else none
  | [] => none

/-- Try one mean label alternative (`(?i)` literal plus trailing `\b`). -/
def tryLabel (lab : String) (cs : List Char) : Option (List Char) :=
  match litCI lab.data cs with
  | some r => if labelEnd r then some r else none
  | none => none

/-- The label alternation of `RE_MEAN`: `(?:mean|average|avg)\b`.  The three
alternatives are mutually exclusive on their first characters, so the first
literal that matches is the regex's choice. -/
def meanLabel (cs : List Char) : Option (List Char) :=
  match tryLabel "mean" cs with
  | some r => some r
  | none =>
    match tryLabel "average" cs with
    | some r => some r
    | none => tryLabel "avg" cs

/-- Attempt `RE_MEAN` at the current position, given the previous character for
the leading `\b`: `\b(?:after\s+)?(?:mean|average|avg)\b\s*[:=]\s*FLOAT`.
Returns the float capture and the rest of the input. -/
def matchMeanAt (prev : Option Char) (cs : List Char) : Option (List Char × List Char) :=
  if !boundaryOK prev then none
  else
    let withAfter : Option (List Char × List Char) :=
      match litCI "after".data cs with
      | some r1 =>
        match skipWs1 r1 with
        | some r2 =>
          match meanLabel r2 with
          | some r3 => sepFloat r3
          | none => none
        | none => none
      | none => none
    match withAfter with
    | some res => some res
    | none =>
      match meanLabel cs with
      | some r => sepFloat r
      | none => none

/-- Label candidates of `RE_STD` in the regex's backtracking order:
`std\.`, `std\s*dev`, `std`, `sd`, `stddev`, `std\s*deviation`, each subject to
the trailing `\b`.  Each candidate is the remainder after the label; the
caller tries the `\s*[:=]\s*FLOAT` tail against them in order. -/
def stdCandidates (cs : List Char) : List (List Char) :=
  let c1 : List (List Char) :=
    match litCI "std".data cs with
    | some r =>
      let l1 : List (List Char) :=
        match r with
        | '.' :: r2 =>
          -- after `std.` the last matched character is non-word, so the `\b`
          -- needs a word character next (which the `[:=]` tail then rejects)
          match r2.head? with
          | some c => if isWordChar c then [r2] else []
          | none => []
        | _ => []
      let rw := r.dropWhile isSpaceChar
      let l2 : List (List Char) :=
        match litCI "dev".data rw with
        | some r3 => if labelEnd r3 then [r3] else []
        | none => []
      let l3 : List (List Char) := if labelEnd r then [r] else []
      l1 ++ l2 ++ l3
    | none => []
  let c2 : List (List Char) :=
    match litCI "sd".data cs with
    | some r => if labelEnd r then [r] else []
    | none => []
  let c3 : List (List Char) :=
    match litCI "stddev".data cs with
    | some r => if labelEnd r then [r] else []
    | none => []
  let c4 : List (List Char) :=
    match litCI "std".data cs with
    | some r =>
      match litCI "deviation".data (r.dropWhile isSpaceChar) with
      | some r3 => if labelEnd r3 then [r3] else []
      | none => []
    | none => []
  c1 ++ c2 ++ c3 ++ c4

/-- Try the `\s*[:=]\s*FLOAT` tail against label candidates in order. -/
def firstSepFloat : List (List Char) → Option (List Char × List Char)
  | [] => none
  | r :: rs =>
    match sepFloat r with
    | some x => some x
    | none => firstSepFloat rs

/-- Attempt `RE_STD` at the current position:
`\b(?:std(?:\.|\s*dev)?|sd|stddev|std\s*deviation)\b\s*[:=]\s*FLOAT`. -/
def matchStdAt (prev : Option Char) (cs : List Char) : Option (List Char × List Char) :=
  if !boundaryOK prev then none
  else firstSepFloat (stdCandidates cs)

/-- `re.findall` driver: scan left to right, taking non-overlapping matches and
resuming after each match; the previous character is threaded for `\b`.  Both
patterns end in the captured FLOAT, so the character preceding the resumption
point is the last character of the capture. -/
def scanAll (f : Option Char → List Char → Option (List Char × List Char)) :
    Option Char → List Char → Nat → List String
  | _, _, 0 => []
  | prev, cs, fuel + 1 =>
    match f prev cs with
    | some (cap, rest) => String.mk cap :: scanAll f cap.getLast? rest fuel
    | none =>
      match cs with
      | [] => []
      | c :: rest => scanAll f (some c) rest fuel

/-- `RE_MEAN.findall`. -/
def findAllMean (s : String) : List String :=
  scanAll matchMeanAt none s.data s.data.length

/-- `RE_STD.findall`. -/
def findAllStd (s : String) : List String :=
  scanAll matchStdAt none s.data s.data.length

/-- First case-insensitive occurrence of `pat` in `cs`: returns the text before
the occurrence and the text after it. -/
def findLitCI (pat : List Char) (cs : List Char) : Option (List Char × List Char) :=
  match litCI pat cs with
  | some after => some ([], after)
  | none =>
    match cs with
    | [] => none
    | c :: rest =>
      match findLitCI pat rest with
      | some pr => some (c :: pr.1, pr.2)
      | none => none

/-- Strip leading and trailing `\s` characters; this is the effect of the
`\s*(.*?)\s*` capture in `RE_PERF_BLOCK`. -/
def trimWs (cs : List Char) : List Char :=
  ((cs.dropWhile isSpaceChar).reverse.dropWhile isSpaceChar).reverse

/-- `RE_PERF_BLOCK.findall`: non-greedy `(?is)PERF_START:\s*(.*?)\s*PERF_END:`.
Each match runs from a `PERF_START:` marker to the nearest following
`PERF_END:` marker; scanning resumes after the end marker. -/
def findPerfBlocksAux : List Char → Nat → List String
  | _, 0 => []
  | cs, fuel + 1 =>
    match findLitCI "perf_start:".data cs with
    | none => []
    | some st =>
      match findLitCI "perf_end:".data st.2 with
      | none => []
      | some en => String.mk (trimWs en.1) :: findPerfBlocksAux en.2 fuel

/-- All PERF blocks of the raw text, in order of occurrence. -/
def findPerfBlocks (text : String) : List String :=
  findPerfBlocksAux text.data text.data.length

/-- `extract_scope` from the source: empty text gives `""`; otherwise the last
PERF block if any block exists, else the whole text. -/
def extract_scope (text : String) : String :=
  if text == "" then ""
  else (findPerfBlocks text).getLastD text

/-- Syntactic decomposition of a FLOAT literal into sign (`true` when
non-negative), integer part, fractional numerator, fractional digit count and
exponent.  This is the digit-level part of Python `float()` on the strings
captured by the FLOAT pattern. -/
def parseFloatParts (cs : List Char) : Option (Bool × ℕ × ℕ × ℕ × ℤ) :=
  let sgn : Bool × List Char :=
    match cs with
    | '+' :: rest => (true, rest)
    | '-' :: rest => (false, rest)
    | _ => (true, cs)
  let ds1 := sgn.2.takeWhile (fun c => c.isDigit)
  let r1 := sgn.2.dropWhile (fun c => c.isDigit)
  let intPart : ℕ := ds1.foldl (fun n c => n * 10 + (c.toNat - '0'.toNat)) 0
  let frac : Option (ℕ × ℕ × List Char) :=
    match r1 with
    | '.' :: r2 =>
      let ds2 := r2.takeWhile (fun c => c.isDigit)
      if ds2.isEmpty then none
      else some (ds2.foldl (fun n c => n * 10 + (c.toNat - '0'.toNat)) 0, ds2.length,
        r2.dropWhile (fun c => c.isDigit))
    | _ => some (0, 0, r1)
  match frac with
  | none => none
  | some (fn, fl, r2) =>
    if ds1.isEmpty && !(match r1 with | '.' :: _ => true | _ => false) then none
    else
      let expPart : Option ℤ :=
        match r2 with
        | e :: r3 =>
          if e == 'e' || e == 'E' then
            let es : Bool × List Char :=
              match r3 with
              | '+' :: r4 => (true, r4)
              | '-' :: r4 => (false, r4)
              | _ => (true, r3)
            let ds := es.2.takeWhile (fun c => c.isDigit)
            if ds.isEmpty || !(es.2.dropWhile (fun c => c.isDigit)).isEmpty then none
            else
              let m : ℕ := ds.foldl (fun n c => n * 10 + (c.toNat - '0'.toNat)) 0
              some (if es.1 then (m : ℤ) else -(m : ℤ))
          else none
        | [] => some 0
      expPart.map (fun ex => (sgn.1, intPart, fn, fl, ex))

/-- The rational denoted by a decomposed FLOAT literal. -/
def ratOfParts (p : Bool × ℕ × ℕ × ℕ × ℤ) : ℚ :=
  let base : ℚ := (if p.1 then 1 else -1) * ((p.2.1 : ℚ) + (p.2.2.1 : ℚ) / 10 ^ p.2.2.2.1)
  if 0 ≤ p.2.2.2.2 then base * 10 ^ p.2.2.2.2.toNat else base / 10 ^ (-p.2.2.2.2).toNat

/-- Numeric parsing of a FLOAT literal, the model of Python `float()` on the
strings captured by the FLOAT pattern. -/
def parseFloatChars (cs : List Char) : Option ℚ :=
  (parseFloatParts cs).map ratOfParts

/-- Numeric parsing of a captured FLOAT string. -/
def parseFloat (s : String) : Option ℚ :=
  parseFloatChars s.data

/-- The tail of `parse_mean_std`: `if not means or not stds: return None, None;
try: return float(means[-1]), float(stds[-1]); except: return None, None`. -/
def finishParse (means stds : List String) : Option ℚ × Option ℚ :=
  match means.getLast?, stds.getLast? with
  | some m, some s =>
    match parseFloat m, parseFloat s with
    | some qm, some qs => (some qm, some qs)
    | _, _ => (none, none)
  | _, _ => (none, none)

/-- `parse_mean_std` from the source: match within the scoped text, falling
back to the entire raw text when a mean and a std are not both found. -/
def parse_mean_std (text : String) : Option ℚ × Option ℚ :=
  let means := findAllMean (extract_scope text)
  let stds := findAllStd (extract_scope text)
  if means.isEmpty || stds.isEmpty then
    finishParse (findAllMean text) (findAllStd text)
  else finishParse means stds

/-! ## Data model -/

/-- The `docker` section of a task: environment identifiers and the command
templates under `commands`.  `none` models a missing key or a `None` value;
both are falsy in the source and both stringify away from `PLACEHOLDER`, so
the distinction is not observable. -/
structure Docker where
  base_image : Option String
  human_image : Option String
  llm_image : Option String
  run_base : Option String
  run_human : Option String
  run_llm : Option String
deriving DecidableEq

/-- A task record as consumed by the runner: `id`, `workload.code`, the
`docker` section, and the `status` and `comparison` dicts (string-valued
insertion-ordered dictionaries). -/
structure Task where
  id : String
  workload_code : String
  docker : Docker
  status : List (String × String)
  comparison : List (String × String)
deriving DecidableEq

/-- A metric object `{"mean": ..., "std": ...}` as stored in a record. -/
structure MetricObj where
  mean : Option ℚ
  std : Option ℚ
deriving DecidableEq

/-- Result of `run_variant`: the extracted metric pair, the log status string,
and the list of shell commands that were actually executed. -/
structure Outcome where
  mean : Option ℚ
  std : Option ℚ
  info : String
  executed : List String
deriving DecidableEq

/-- One row of `results.json` as built by `main`, with the field names used by
the source (note the capitalised `LLM_improvement`). -/
structure ResultRecord where
  id : String
  before : Option MetricObj
  after_human : Option MetricObj
  after_llm : Option MetricObj
  status : List (String × String)
  comparison : List (String × String)
  updated_at : String
  human_improvement : Option ℚ
  LLM_improvement : Option ℚ
  speedup_human : Option ℚ
  speedup_llm : Option ℚ
deriving DecidableEq

/-! ## Dict helpers (Python `dict` on string keys, insertion-ordered) -/

/-- `d.get(k, dflt)`. -/
def dictGet (d : List (String × String)) (k dflt : String) : String :=
  match d.find? (fun p => p.1 == k) with
  | some p => p.2
  | none => dflt

/-- `d[k] = v`: replace the value in place if the key exists, else append. -/
def dictSet : List (String × String) → String → String → List (String × String)
  | [], k, v => [(k, v)]
  | p :: rest, k, v => if p.1 == k then (k, v) :: rest else p :: dictSet rest k v

/-- `d.setdefault(k, v)`: append the pair only if the key is absent. -/
def dictSetdefault (d : List (String × String)) (k v : String) : List (String × String) :=
  if (d.find? (fun p => p.1 == k)).isSome then d else d ++ [(k, v)]

/-! ## Variant runner -/

/-- Python truthiness of an optional string: `not tmpl` fails for `None` and
for the empty string. -/
def truthyOpt : Option String → Bool
  | none => false
  | some s => !(s == "")

/-- Python `x in s` substring test. -/
def containsSub : List Char → List Char → Bool
  | [], pat => pat.isEmpty
  | s@(_ :: rest), pat => pat.isPrefixOf s || containsSub rest pat

/-- Python `str.replace(pat, rep)` with a non-empty pattern: replace all
non-overlapping occurrences left to right. -/
def replaceChars : List Char → List Char → List Char → Nat → List Char
  | s, _, _, 0 => s
  | s, pat, rep, fuel + 1 =>
    match s with
    | [] => []
    | c :: rest =>
      if pat ≠ [] ∧ pat.isPrefixOf s then
        rep ++ replaceChars (s.drop pat.length) pat rep fuel
      else c :: replaceChars rest pat rep fuel

/-- Substitute the template placeholders `{id}`, `{base_image}`,
`{human_image}`, `{llm_image}` and the literal `<WORKLOAD_PY>`.  This models
`render` in the source (`str.format` over exactly those four named fields,
then `.replace`). -/
def render (tmpl id bi hi li wpy : String) : String :=
  let sub (s : String) (pat rep : String) : String :=
    String.mk (replaceChars s.data pat.data rep.data s.data.length)
  sub (sub (sub (sub (sub tmpl "\x7bid\x7d" id) "\x7bbase_image\x7d" bi)
      "\x7bhuman_image\x7d" hi) "\x7bllm_image\x7d" li) "<WORKLOAD_PY>" wpy

inductive Variant where
  | base
  | human
  | llm
deriving DecidableEq

/-- The variant name as it appears in status strings. -/
def Variant.name : Variant → String
  | .base => "base"
  | .human => "human"
  | .llm => "llm"

/-- The canonical human-variant command enforced by the source (the `desired`
template in `run_variant`): chmod the perf entry point, apply the patch, then
invoke the entry point. -/
def desiredHumanTmpl : String :=
  "docker run --rm --platform linux/amd64 --name bench_\x7bid\x7d_human " ++
  "--mount type=bind,src=<WORKLOAD_PY>,dst=/tmp/workload.py " ++
  "\x7bhuman_image\x7d /bin/bash -lc " ++
  "\x27chmod +x /perf.sh && git apply /tmp/patch.diff && /perf.sh\x27 2>&1"

/-- The guard-and-override of the stored `run_human` template: the stored
template is replaced by the canonical one when it is missing/empty, or when it
contains one of the two known stale patterns. -/
def resolveHumanTmpl (stored : Option String) : String :=
  let s := stored.getD ""
  if s == "" || containsSub s.data "/perf.sh && git apply".data ||
      containsSub s.data "git apply -q".data then
    desiredHumanTmpl
  else s

/-- Python `str.upper()` (the sentinels compared against are ASCII). -/
def upperStr (s : String) : String :=
  String.mk (s.data.map (fun c => c.toUpper))

/-- Python `str.startswith(p)`. -/
def startsWithStr (s p : String) : Bool :=
  p.data.isPrefixOf s.data

/-- The LLM short-circuit condition: environment identifier absent/empty or
starting (case-insensitively) with `PLACEHOLDER`. -/
def llmSkip (t : Task) : Bool :=
  !truthyOpt t.docker.llm_image ||
    startsWithStr (upperStr (t.docker.llm_image.getD "")) "PLACEHOLDER"

/-- Render the resolved template, run it through the execution oracle, and
parse the captured text; the tail of `run_variant` after template selection. -/
def runTemplate (exec : String → String) (t : Task) (v : Variant) (wpy : String)
    (tmpl : Option String) : Outcome :=
  if truthyOpt tmpl then
    let cmd := render (tmpl.getD "") t.id (t.docker.base_image.getD "")
      (t.docker.human_image.getD "") (t.docker.llm_image.getD "") wpy
    match parse_mean_std (exec cmd) with
    | (some m, some s) => ⟨some m, some s, "OK", [cmd]⟩
    | _ => ⟨none, none, "parse failed", [cmd]⟩
  else ⟨none, none, "missing command template for " ++ v.name, []⟩

/-- `run_variant` from the source. -/
def runVariant (exec : String → String) (t : Task) (v : Variant) (wpy : String) : Outcome :=
  match v with
  | .base => runTemplate exec t .base wpy t.docker.run_base
  | .human => runTemplate exec t .human wpy (some (resolveHumanTmpl t.docker.run_human))
  | .llm =>
    if llmSkip t then ⟨none, none, "skipped (placeholder)", []⟩
    else runTemplate exec t .llm wpy t.docker.run_llm

/-! ## Aggregation: the per-task record construction in `main` -/

/-- `{"mean": m, "std": s} if m is not None else None`. -/
def metricObjOf (m s : Option ℚ) : Option MetricObj :=
  if m.isSome then some ⟨m, s⟩ else none

/-- `rec[f]["mean"] if rec[f] else None`. -/
def metricMean : Option MetricObj → Option ℚ
  | some mo => mo.mean
  | none => none

/-- `calc_impr` from the source: percentage change, `None` when a mean is
missing or the baseline mean is zero. -/
def calc_impr (after_mean before_mean : Option ℚ) : Option ℚ :=
  match after_mean, before_mean with
  | some a, some b => if b = 0 then none else some ((a / b - 1) * 100)
  | _, _ => none

/-- The legacy speedup ratio: `before/after` guarded by Python truthiness of
the two record fields and the two means (so a zero mean on either side also
yields `None`). -/
def speedupOf (before after : Option MetricObj) : Option ℚ :=
  match before, after with
  | some b, some a =>
    match b.mean, a.mean with
    | some bm, some am => if bm = 0 ∨ am = 0 then none else some (bm / am)
    | _, _ => none
  | _, _ => none

/-- The `1e-9` comparison epsilon, taken exactly. -/
def eps : ℚ := 1 / 1000000000

/-- The YES/NO/TIE classification used when both after-means are present. -/
def llmBetterClass (hm lm : ℚ) : String :=
  if lm + eps < hm then "YES" else if hm + eps < lm then "NO" else "TIE"

/-- The `comparison` dict of the freshly built record: classify when both
after-means exist, else fall back on stored LLM status / placeholder image,
else keep any previously stored classification defaulting to UNKNOWN. -/
def comparisonOf (t : Task) (after_human after_llm : Option MetricObj) :
    List (String × String) :=
  match metricMean after_human, metricMean after_llm with
  | some hm, some lm => dictSet t.comparison "llm_better" (llmBetterClass hm lm)
  | _, _ =>
    if upperStr (dictGet t.status "llm" "") == "COMING_SOON" ||
        upperStr (dictGet t.status "llm" "") == "PENDING" ||
        startsWithStr (upperStr (t.docker.llm_image.getD "")) "PLACEHOLDER" then
      dictSet t.comparison "llm_better" "COMING_SOON"
    else dictSetdefault t.comparison "llm_better" "UNKNOWN"

/-- The per-task record construction of `main`, given the six metric values
returned by the three variant runs. -/
def buildRecord (t : Task) (now : String) (bm bs hm hs lm ls : Option ℚ) : ResultRecord :=
  { id := t.id
    before := metricObjOf bm bs
    after_human := metricObjOf hm hs
    after_llm := metricObjOf lm ls
    status := t.status
    comparison := comparisonOf t (metricObjOf hm hs) (metricObjOf lm ls)
    updated_at := now
    human_improvement := calc_impr (metricMean (metricObjOf hm hs)) (metricMean (metricObjOf bm bs))
    LLM_improvement := calc_impr (metricMean (metricObjOf lm ls)) (metricMean (metricObjOf bm bs))
    speedup_human := speedupOf (metricObjOf bm bs) (metricObjOf hm hs)
    speedup_llm := speedupOf (metricObjOf bm bs) (metricObjOf lm ls) }

/-- The whole per-task body of `main` for a task with a non-empty workload:
run the three variants in order and aggregate. -/
def taskRecord (exec : String → String) (t : Task) (now wpy : String) : ResultRecord :=
  buildRecord t now
    (runVariant exec t .base wpy).mean (runVariant exec t .base wpy).std
    (runVariant exec t .human wpy).mean (runVariant exec t .human wpy).std
    (runVariant exec t .llm wpy).mean (runVariant exec t .llm wpy).std

/-! ## Result store -/

/-- `upsert_result` from the source: replace the first record whose `id`
matches, else append. -/
def upsert_result : List ResultRecord → ResultRecord → List ResultRecord
  | [], rec => [rec]
  | r :: rs, rec => if r.id == rec.id then rec :: rs else r :: upsert_result rs rec

/-! ## Serialized shape of a stored record -/

/-- A JSON value, as far as the persisted store needs. -/
inductive JVal where
  | jnull : JVal
  | jnum : ℚ → JVal
  | jstr : String → JVal
  | jbool : Bool → JVal
  | jobj : List (String × JVal) → JVal

/-- A numeric-or-null field. -/
def optNumJ : Option ℚ → JVal
  | some q => .jnum q
  | none => .jnull

/-- A metric field: the two-key object or null. -/
def metricJ : Option MetricObj → JVal
  | some m => .jobj [("mean", optNumJ m.mean), ("std", optNumJ m.std)]
  | none => .jnull

/-- A string-valued dict field. -/
def strDictJ (l : List (String × String)) : JVal :=
  .jobj (l.map (fun p => (p.1, .jstr p.2)))

/-- The serialized key/value pairs of one stored record, in the insertion
order produced by `main` (`json.dump` with `sort_keys=False`). -/
def recordJson (r : ResultRecord) : List (String × JVal) :=
  [("id", .jstr r.id),
   ("before", metricJ r.before),
   ("after_human", metricJ r.after_human),
   ("after_llm", metricJ r.after_llm),
   ("status", strDictJ r.status),
   ("comparison", strDictJ r.comparison),
   ("stats", .jobj [("collect", .jbool false), ("cpu_p95", .jnull), ("mem_max_mb", .jnull)]),
   ("updated_at", .jstr r.updated_at),
   ("human_improvement", optNumJ r.human_improvement),
   ("LLM_improvement", optNumJ r.LLM_improvement),
   ("speedup_human", optNumJ r.speedup_human),
   ("speedup_llm", optNumJ r.speedup_llm)]

/-! ## Sample data for concrete instances -/

/-- A docker section with everything missing. -/
def emptyDocker : Docker := ⟨none, none, none, none, none, none⟩

/-- A minimal task with the given id. -/
def sampleTask (i : String) : Task := ⟨i, "x = 1", emptyDocker, [], []⟩

/-- A constant execution oracle (captured output is empty). -/
def execEmpty : String → String := fun _ => ""

/-! ## Helper lemmas -/

theorem metricMean_metricObjOf (m s : Option ℚ) : metricMean (metricObjOf m s) = m := by
  cases m <;> rfl

theorem dictGet_dictSet (d : List (String × String)) (k v dflt : String) :
    dictGet (dictSet d k v) k dflt = v := by
  induction d with
  | nil => simp [dictGet, dictSet, List.find?]
  | cons p rest ih =>
    by_cases h : p.1 == k
    · simp [dictGet, dictSet, h, List.find?]
    · simpa [dictGet, dictSet, h, List.find?] using ih

theorem speedupOf_metricObjOf (bm bs am as : Option ℚ) :
    speedupOf (metricObjOf bm bs) (metricObjOf am as) =
      match bm, am with
      | some b, some a => if b = 0 ∨ a = 0 then none else some (b / a)
      | _, _ => none := by
  rcases bm <;> rcases am <;> rfl

/-! ## Claims -/

/-- C2: for every record with both after-means present, `comparison.llm_better`
is computed with epsilon `1e-9`: YES when `llm + eps < human`, NO when
`human + eps < llm`, otherwise TIE; `human = 5.0000000001, llm = 5.0` is TIE
and `human = 5.01, llm = 5.0` is YES. -/
theorem llm_better_epsilon_rule (t : Task) (now : String) (bm bs hs ls : Option ℚ)
    (hm lm : ℚ) :
    (buildRecord t now bm bs (some hm) hs (some lm) ls).comparison =
      dictSet t.comparison "llm_better"
        (if lm + eps < hm then "YES" else if hm + eps < lm then "NO" else "TIE") ∧
    dictGet (buildRecord t now bm bs (some hm) hs (some lm) ls).comparison
        "llm_better" "" = llmBetterClass hm lm ∧
    llmBetterClass 5.0000000001 5.0 = "TIE" ∧
    llmBetterClass 5.01 5.0 = "YES" := by
  have h1 : (buildRecord t now bm bs (some hm) hs (some lm) ls).comparison =
      dictSet t.comparison "llm_better" (llmBetterClass hm lm) := rfl
  refine ⟨h1, ?_, ?_, ?_⟩
  · rw [h1]
    exact dictGet_dictSet t.comparison "llm_better" (llmBetterClass hm lm) ""
  · unfold llmBetterClass eps
    rw [if_neg (by norm_num), if_neg (by norm_num)]
  · unfold llmBetterClass eps
    rw [if_pos (by norm_num)]

/-- C3: the improvement fields are `(after/before - 1) * 100` when both means
are present and the baseline is nonzero, and null when a mean is missing or
the baseline is zero; `10 → 8` gives `-20`, `10 → 12` gives `+20`, and a zero
baseline gives null without any division error. -/
theorem improvement_formula (t : Task) (now : String) (bm bs hm hs lm ls : Option ℚ) :
    (buildRecord t now bm bs hm hs lm ls).human_improvement = calc_impr hm bm ∧
    (buildRecord t now bm bs hm hs lm ls).LLM_improvement = calc_impr lm bm ∧
    (∀ a b : ℚ, b ≠ 0 → calc_impr (some a) (some b) = some ((a / b - 1) * 100)) ∧
    (∀ a : ℚ, calc_impr (some a) (some 0) = none) ∧
    (∀ b : Option ℚ, calc_impr none b = none) ∧
    (∀ a : Option ℚ, calc_impr a none = none) ∧
    calc_impr (some 8) (some 10) = some (-20) ∧
    calc_impr (some 12) (some 10) = some 20 := by
  refine ⟨?_, ?_, ?_, ?_, ?_, ?_, by norm_num [calc_impr], by norm_num [calc_impr]⟩
  · show calc_impr (metricMean (metricObjOf hm hs)) (metricMean (metricObjOf bm bs)) =
      calc_impr hm bm
    rw [metricMean_metricObjOf, metricMean_metricObjOf]
  · show calc_impr (metricMean (metricObjOf lm ls)) (metricMean (metricObjOf bm bs)) =
      calc_impr lm bm
    rw [metricMean_metricObjOf, metricMean_metricObjOf]
  · intro a b hb
    simp [calc_impr, hb]
  · intro a
    simp [calc_impr]
  · intro b
    cases b <;> rfl
  · intro a
    cases a <;> rfl

/-- C3 witness: the nonzero-baseline formula instantiated at `before = 2`,
`after = 5` (improvement `+150`). -/
theorem improvement_formula_witness : calc_impr (some 5) (some 2) = some 150 := by
  have h := (improvement_formula (sampleTask "w3") "n" none none none none none none).2.2.1
    5 2 (by norm_num)
  rw [h]
  norm_num

/-- C7 counterexample: with `before.mean = 10` and `after_human.mean = 0`,
both means are non-null and the baseline is nonzero, yet `speedup_human` is
null — refuting "null if and only if either mean is null or beforeMean is 0"
(the improvement field is even non-null here). -/
theorem speedup_zero_after_counterexample :
    (buildRecord (sampleTask "c7") "n" (some 10) (some 1) (some 0) (some 1)
      none none).speedup_human = none ∧
    (buildRecord (sampleTask "c7") "n" (some 10) (some 1) (some 0) (some 1)
      none none).before = some ⟨some 10, some 1⟩ ∧
    (buildRecord (sampleTask "c7") "n" (some 10) (some 1) (some 0) (some 1)
      none none).after_human = some ⟨some 0, some 1⟩ ∧
    (buildRecord (sampleTask "c7") "n" (some 10) (some 1) (some 0) (some 1)
      none none).human_improvement = some (-100) := by
  refine ⟨?_, rfl, rfl, ?_⟩
  · show speedupOf (metricObjOf (some 10) (some 1)) (metricObjOf (some 0) (some 1)) = none
    rw [speedupOf_metricObjOf]
    simp
  · show calc_impr (metricMean (metricObjOf (some 0) (some 1)))
      (metricMean (metricObjOf (some 10) (some 1))) = some (-100)
    rw [metricMean_metricObjOf, metricMean_metricObjOf]
    norm_num [calc_impr]

/-- C7 amended: the speedup fields equal `before/after` and are null exactly
when either mean is null or either mean (baseline or after) is zero. -/
theorem speedup_null_iff (t : Task) (now : String) (bm bs hm hs lm ls : Option ℚ) :
    ((buildRecord t now bm bs hm hs lm ls).speedup_human = none ↔
      bm = none ∨ hm = none ∨ bm = some 0 ∨ hm = some 0) ∧
    (∀ b a : ℚ, bm = some b → hm = some a → b ≠ 0 → a ≠ 0 →
      (buildRecord t now bm bs hm hs lm ls).speedup_human = some (b / a)) ∧
    ((buildRecord t now bm bs hm hs lm ls).speedup_llm = none ↔
      bm = none ∨ lm = none ∨ bm = some 0 ∨ lm = some 0) ∧
    (∀ b a : ℚ, bm = some b → lm = some a → b ≠ 0 → a ≠ 0 →
      (buildRecord t now bm bs hm hs lm ls).speedup_llm = some (b / a)) := by
  have e1 : (buildRecord t now bm bs hm hs lm ls).speedup_human =
      speedupOf (metricObjOf bm bs) (metricObjOf hm hs) := rfl
  have e2 : (buildRecord t now bm bs hm hs lm ls).speedup_llm =
      speedupOf (metricObjOf bm bs) (metricObjOf lm ls) := rfl
  rw [e1, e2, speedupOf_metricObjOf, speedupOf_metricObjOf]
  refine ⟨?_, ?_, ?_, ?_⟩
  · rcases bm with _ | b <;> rcases hm with _ | a <;> simp
    by_cases hb : b = 0 <;> by_cases ha : a = 0 <;> simp [hb, ha]
  · rintro b a rfl rfl hb ha
    simp [hb, ha]
  · rcases bm with _ | b <;> rcases lm with _ | a <;> simp
    by_cases hb : b = 0 <;> by_cases ha : a = 0 <;> simp [hb, ha]
  · rintro b a rfl rfl hb ha
    simp [hb, ha]

/-- C7 witness: `before.mean = 10`, `after_human.mean = 4` gives speedup
`10/4 = 5/2`. -/
theorem speedup_null_iff_witness :
    (buildRecord (sampleTask "w7") "n" (some 10) (some 1) (some 4) (some 1)
      none none).speedup_human = some (5 / 2) := by
  have h := (speedup_null_iff (sampleTask "w7") "n" (some 10) (some 1) (some 4) (some 1)
    none none).2.1 10 4 rfl rfl (by norm_num) (by norm_num)
  rw [h]
  norm_num

/-- C9 counterexample: a persisted record has no field named
`llm_improvement`; the LLM improvement is stored under `LLM_improvement`. -/
theorem record_field_name_counterexample :
    ¬ ("llm_improvement" ∈ (recordJson (buildRecord (sampleTask "c9") "n"
      none none none none none none)).map Prod.fst) ∧
    "LLM_improvement" ∈ (recordJson (buildRecord (sampleTask "c9") "n"
      none none none none none none)).map Prod.fst := by
  decide

/-- C9 amended: every persisted record carries exactly the keys of §3 in
insertion order, except that the LLM improvement field is named
`LLM_improvement` (capitalised), not `llm_improvement`; `human_improvement`
is present as specified. -/
theorem record_field_names_amended (r : ResultRecord) :
    (recordJson r).map Prod.fst =
      ["id", "before", "after_human", "after_llm", "status", "comparison",
       "stats", "updated_at", "human_improvement", "LLM_improvement",
       "speedup_human", "speedup_llm"] ∧
    "human_improvement" ∈ (recordJson r).map Prod.fst ∧
    ¬ ("llm_improvement" ∈ (recordJson r).map Prod.fst) := by
  refine ⟨rfl, ?_, ?_⟩
  · show "human_improvement" ∈ ["id", "before", "after_human", "after_llm", "status",
      "comparison", "stats", "updated_at", "human_improvement", "LLM_improvement",
      "speedup_human", "speedup_llm"]
    decide
  · show ¬ ("llm_improvement" ∈ ["id", "before", "after_human", "after_llm", "status",
      "comparison", "stats", "updated_at", "human_improvement", "LLM_improvement",
      "speedup_human", "speedup_llm"])
    decide

/-- C4: on a store whose ids are pairwise distinct, `upsert_result` leaves
exactly one record with the new record's id (the new content), preserves the
relative order of all other records, and appends when the id is new. -/
theorem upsert_result_unique_id (l : List ResultRecord) (rec : ResultRecord)
    (h : (l.map (fun r => r.id)).Nodup) :
    (upsert_result l rec).filter (fun r => r.id == rec.id) = [rec] ∧
    (upsert_result l rec).filter (fun r => !(r.id == rec.id)) =
      l.filter (fun r => !(r.id == rec.id)) ∧
    ((∀ r ∈ l, r.id ≠ rec.id) → upsert_result l rec = l ++ [rec]) := by
  induction l with
  | nil =>
    refine ⟨?_, ?_, fun _ => rfl⟩ <;> simp [upsert_result, List.filter]
  | cons r rs ih =>
    rw [List.map_cons, List.nodup_cons] at h
    obtain ⟨hnotin, hnd⟩ := h
    by_cases hr : r.id == rec.id
    · have hideq : r.id = rec.id := eq_of_beq hr
      have hnone : ∀ x ∈ rs, ¬ (x.id == rec.id) = true := by
        intro x hx hbeq
        exact hnotin (by
          rw [List.mem_map]
          exact ⟨x, hx, by rw [eq_of_beq hbeq, hideq]⟩)
      refine ⟨?_, ?_, ?_⟩
      · simp only [upsert_result, hr, if_pos]
        rw [List.filter_cons_of_pos (by simp), List.filter_eq_nil_iff.mpr hnone]
      · simp only [upsert_result, hr, if_pos]
        rw [List.filter_cons_of_neg (by simp), List.filter_cons_of_neg (by simp [hr])]
      · intro hall
        exact absurd hideq (hall r (by simp))
    · obtain ⟨ih1, ih2, ih3⟩ := ih hnd
      refine ⟨?_, ?_, ?_⟩
      · simp only [upsert_result, hr, if_neg, Bool.false_eq_true, not_false_iff]
        rw [List.filter_cons_of_neg (by simp [hr])]
        exact ih1
      · simp only [upsert_result, hr, if_neg, Bool.false_eq_true, not_false_iff]
        rw [List.filter_cons_of_pos (by simp [hr]), List.filter_cons_of_pos (by simp [hr])]
        rw [ih2]
      · intro hall
        simp only [upsert_result, hr, if_neg, Bool.false_eq_true, not_false_iff]
        rw [ih3 (fun x hx => hall x (by simp [hx])), List.cons_append]

/-- C4 witness: upserting a changed record for id `a` into a two-record store
keeps exactly one `a` record (the new one) and leaves the `b` record alone. -/
theorem upsert_result_unique_id_witness :
    (upsert_result
        [buildRecord (sampleTask "a") "1" none none none none none none,
         buildRecord (sampleTask "b") "1" none none none none none none]
        (buildRecord (sampleTask "a") "2" none none none none none none)).filter
      (fun r => r.id == (buildRecord (sampleTask "a") "2"
        none none none none none none).id) =
      [buildRecord (sampleTask "a") "2" none none none none none none] ∧
    (upsert_result
        [buildRecord (sampleTask "a") "1" none none none none none none,
         buildRecord (sampleTask "b") "1" none none none none none none]
        (buildRecord (sampleTask "a") "2" none none none none none none)).filter
      (fun r => !(r.id == (buildRecord (sampleTask "a") "2"
        none none none none none none).id)) =
      [buildRecord (sampleTask "a") "1" none none none none none none,
       buildRecord (sampleTask "b") "1" none none none none none none].filter
      (fun r => !(r.id == (buildRecord (sampleTask "a") "2"
        none none none none none none).id)) := by
  have h := upsert_result_unique_id
    [buildRecord (sampleTask "a") "1" none none none none none none,
     buildRecord (sampleTask "b") "1" none none none none none none]
    (buildRecord (sampleTask "a") "2" none none none none none none)
    (by decide)
  exact ⟨h.1, h.2.1⟩

/-! ## Helper lemmas for the extraction claims -/

theorem parseFloat_eval (s : String) (p : Bool × ℕ × ℕ × ℕ × ℤ) (q : ℚ)
    (h1 : parseFloatParts s.data = some p) (h2 : ratOfParts p = q) :
    parseFloat s = some q := by
  rw [parseFloat, parseFloatChars, h1]
  simp [h2]

theorem finishParse_getLast (means stds : List String) (m s : String) (qm qs : ℚ)
    (hm : means.getLast? = some m) (hs : stds.getLast? = some s)
    (hqm : parseFloat m = some qm) (hqs : parseFloat s = some qs) :
    finishParse means stds = (some qm, some qs) := by
  simp only [finishParse, hm, hs, hqm, hqs]

theorem finishParse_none_left (ss : List String) : finishParse [] ss = (none, none) := by
  cases hs : ss.getLast? <;> simp [finishParse, hs]

theorem finishParse_none_right (ms : List String) : finishParse ms [] = (none, none) := by
  cases hm : ms.getLast? <;> simp [finishParse, hm]

/-- Evaluation rule for `parse_mean_std` when the scoped text yields matches:
the result is the numeric value of the last mean and the last std capture. -/
theorem parse_eval_of_scope (text : String) (m s : String) (qm qs : ℚ)
    (hm : (findAllMean (extract_scope text)).getLast? = some m)
    (hs : (findAllStd (extract_scope text)).getLast? = some s)
    (hqm : parseFloat m = some qm) (hqs : parseFloat s = some qs) :
    parse_mean_std text = (some qm, some qs) := by
  have hm0 : findAllMean (extract_scope text) ≠ [] := by
    intro h0
    rw [h0] at hm
    exact Option.noConfusion hm
  have hs0 : findAllStd (extract_scope text) ≠ [] := by
    intro h0
    rw [h0] at hs
    exact Option.noConfusion hs
  have hcond : ((findAllMean (extract_scope text)).isEmpty ||
      (findAllStd (extract_scope text)).isEmpty) = false := by
    simp [List.isEmpty_iff, hm0, hs0]
  rw [parse_mean_std]
  simp only [hcond, Bool.false_eq_true, if_false]
  exact finishParse_getLast _ _ m s qm qs hm hs hqm hqs

/-! ## C1: scoping to the last PERF block -/

/-- C1: when the raw text contains at least one PERF block, extraction is
scoped to the last block, and when mean/std labels match within that scope the
result is the numeric value of the last occurrence of each. -/
theorem parse_scopes_to_last_block (text : String) (hb : findPerfBlocks text ≠ []) :
    extract_scope text = (findPerfBlocks text).getLast hb ∧
    ∀ (m s : String) (qm qs : ℚ),
      (findAllMean (extract_scope text)).getLast? = some m →
      (findAllStd (extract_scope text)).getLast? = some s →
      parseFloat m = some qm → parseFloat s = some qs →
      parse_mean_std text = (some qm, some qs) := by
  constructor
  · have htext : (text == "") = false := by
      cases he : (text == "")
      · rfl
      · exfalso
        apply hb
        rw [eq_of_beq he]
        rfl
    rw [extract_scope]
    simp only [htext, Bool.false_eq_true, if_false]
    rw [List.getLastD_eq_getLast?, List.getLast?_eq_getLast _ hb, Option.getD_some]
  · intro m s qm qs hm hs hqm hqs
    exact parse_eval_of_scope text m s qm qs hm hs hqm hqs

/-- The two-block example text of the claim. -/
def twoBlockText : String :=
  "PERF_START: Mean: 1.5 Std: 0.5 PERF_END: tail PERF_START: Avg = 2.5 SD = 0.25 PERF_END:"

/-- C1 witness: with two PERF blocks, extraction returns the mean/std of the
second (last) block, not the first. -/
theorem parse_scopes_to_last_block_witness :
    parse_mean_std twoBlockText = (some (5 / 2), some (1 / 4)) ∧
    findPerfBlocks twoBlockText = ["Mean: 1.5 Std: 0.5", "Avg = 2.5 SD = 0.25"] := by
  refine ⟨?_, by decide⟩
  exact (parse_scopes_to_last_block twoBlockText (by decide)).2 "2.5" "0.25" (5 / 2) (1 / 4)
    (by decide) (by decide)
    (parseFloat_eval "2.5" (true, 2, 5, 1, 0) (5 / 2) (by decide) (by norm_num [ratOfParts]))
    (parseFloat_eval "0.25" (true, 0, 25, 2, 0) (1 / 4) (by decide) (by norm_num [ratOfParts]))

/-! ## C5: fallback to the whole text and failure behaviour -/

/-- C5: when a mean and a std are not both found in the scoped text,
extraction is re-run over the entire raw text; the result is null/null when
either capture list is still empty after the fallback (and, inside
`finishParse`, when numeric parsing of a capture fails). -/
theorem parse_fallback_and_failure (text : String)
    (h : findAllMean (extract_scope text) = [] ∨ findAllStd (extract_scope text) = []) :
    parse_mean_std text = finishParse (findAllMean text) (findAllStd text) ∧
    (findAllMean text = [] ∨ findAllStd text = [] → parse_mean_std text = (none, none)) ∧
    (∀ ms ss : List String, ms = [] ∨ ss = [] → finishParse ms ss = (none, none)) ∧
    (∀ (ms ss : List String) (m s : String), ms.getLast? = some m → ss.getLast? = some s →
      parseFloat m = none ∨ parseFloat s = none → finishParse ms ss = (none, none)) := by
  have hcond : ((findAllMean (extract_scope text)).isEmpty ||
      (findAllStd (extract_scope text)).isEmpty) = true := by
    rcases h with h | h <;> simp [h]
  have h1 : parse_mean_std text = finishParse (findAllMean text) (findAllStd text) := by
    rw [parse_mean_std]
    simp only [hcond, if_true]
  have hnil : ∀ ms ss : List String, ms = [] ∨ ss = [] → finishParse ms ss = (none, none) := by
    rintro ms ss (rfl | rfl)
    · exact finishParse_none_left ss
    · exact finishParse_none_right ms
  refine ⟨h1, ?_, hnil, ?_⟩
  · intro h2
    rw [h1]
    exact hnil _ _ h2
  · intro ms ss m s hm hs hfail
    rcases hfail with hf | hf
    · cases hqs : parseFloat s <;> simp only [finishParse, hm, hs, hf, hqs]
    · cases hqm : parseFloat m <;> simp only [finishParse, hm, hs, hf, hqm]

/-- C5 witness: a text with a mean but no recognizable std label gives
`(null, null)` (through the fallback, which also finds no std), while the
inline `"Mean: 12.5, Std Dev: 0.3"` without block markers parses to
`(12.5, 0.3)`. -/
theorem parse_fallback_and_failure_witness :
    parse_mean_std "Mean: 5.5 but nothing else" = (none, none) ∧
    parse_mean_std "Mean: 12.5, Std Dev: 0.3" = (some (25 / 2), some (3 / 10)) := by
  constructor
  · exact (parse_fallback_and_failure "Mean: 5.5 but nothing else"
      (Or.inr (by decide))).2.1 (Or.inr (by decide))
  · exact parse_eval_of_scope "Mean: 12.5, Std Dev: 0.3" "12.5" "0.3" (25 / 2) (3 / 10)
      (by decide) (by decide)
      (parseFloat_eval "12.5" (true, 12, 5, 1, 0) (25 / 2) (by decide)
        (by norm_num [ratOfParts]))
      (parseFloat_eval "0.3" (true, 0, 3, 1, 0) (3 / 10) (by decide)
        (by norm_num [ratOfParts]))

/-! ## C6: the human-template guard -/

/-- A task storing a human-run template that is not the canonical command and
contains neither stale pattern. -/
def taskC6 : Task :=
  { id := "t6", workload_code := "x",
    docker := { emptyDocker with run_human := some "echo hi" },
    status := [], comparison := [] }

/-- C6 counterexample: the stored template `echo hi` does not match the
canonical three-step shape, yet running the human variant keeps it (and
executes it) instead of overriding it — the guard only fires on missing/empty
templates and on the two stale patterns. -/
theorem human_guard_counterexample :
    resolveHumanTmpl (some "echo hi") = "echo hi" ∧
    "echo hi" ≠ desiredHumanTmpl ∧
    (runVariant execEmpty taskC6 .human "w").executed = ["echo hi"] := by
  exact ⟨by decide, by decide, by decide⟩

/-- The resolved human template is never empty. -/
theorem truthy_resolveHumanTmpl (o : Option String) :
    truthyOpt (some (resolveHumanTmpl o)) = true := by
  rw [resolveHumanTmpl]
  cases hb : ((o.getD "") == "" || containsSub (o.getD "").data "/perf.sh && git apply".data ||
      containsSub (o.getD "").data "git apply -q".data)
  · simp only [Bool.false_eq_true, if_false]
    simp only [Bool.or_eq_false_iff] at hb
    simp [truthyOpt, hb.1.1]
  · simp only [if_true]
    decide

/-- C6 amended: the stored human-run template is replaced by the canonical
three-step command exactly when it is missing or empty, or when it contains
one of the stale patterns `/perf.sh && git apply` (wrong order) or
`git apply -q`; any other stored template is used unchanged, and the human
variant executes exactly the rendered resolved template. -/
theorem human_guard_amended (exec : String → String) (t : Task) (wpy : String) (s : String) :
    resolveHumanTmpl none = desiredHumanTmpl ∧
    resolveHumanTmpl (some "") = desiredHumanTmpl ∧
    ((containsSub s.data "/perf.sh && git apply".data ||
      containsSub s.data "git apply -q".data) = true →
      resolveHumanTmpl (some s) = desiredHumanTmpl) ∧
    (s ≠ "" →
      (containsSub s.data "/perf.sh && git apply".data ||
       containsSub s.data "git apply -q".data) = false →
      resolveHumanTmpl (some s) = s) ∧
    (runVariant exec t .human wpy).executed =
      [render (resolveHumanTmpl t.docker.run_human) t.id (t.docker.base_image.getD "")
        (t.docker.human_image.getD "") (t.docker.llm_image.getD "") wpy] := by
  refine ⟨rfl, rfl, ?_, ?_, ?_⟩
  · intro h
    rw [resolveHumanTmpl]
    simp only [Option.getD_some]
    rw [Bool.or_eq_true] at h
    rcases h with h | h <;> simp [h]
  · intro hs h
    rw [resolveHumanTmpl]
    simp only [Option.getD_some]
    rw [Bool.or_eq_false_iff] at h
    have hbeq : (s == "") = false := by
      cases hb : (s == "")
      · rfl
      · exact absurd (eq_of_beq hb) hs
    simp [hbeq, h.1, h.2]
  · show (runTemplate exec t .human wpy (some (resolveHumanTmpl t.docker.run_human))).executed = _
    rw [runTemplate]
    simp only [truthy_resolveHumanTmpl, if_true, Option.getD_some]
    cases hp : parse_mean_std (exec (render (resolveHumanTmpl t.docker.run_human) t.id
        (t.docker.base_image.getD "") (t.docker.human_image.getD "")
        (t.docker.llm_image.getD "") wpy)) with
    | mk o1 o2 => cases o1 <;> cases o2 <;> rfl

/-- A task storing a non-canonical but well-formed human-run template. -/
def taskW6 : Task :=
  { id := "w6", workload_code := "x",
    docker := { emptyDocker with run_human := some "docker foo" },
    status := [], comparison := [] }

/-- C6 amended witness: a stored template free of the stale patterns is used
unchanged, and is what the human variant executes. -/
theorem human_guard_amended_witness :
    resolveHumanTmpl (some "docker foo") = "docker foo" ∧
    (runVariant execEmpty taskW6 .human "w").executed = ["docker foo"] := by
  have h := human_guard_amended execEmpty taskW6 "w" "docker foo"
  refine ⟨h.2.2.2.1 (by decide) (by decide), ?_⟩
  rw [h.2.2.2.2]
  decide

/-! ## C8: the LLM placeholder short-circuit -/

/-- A task whose LLM environment identifier is absent. -/
def taskC8 : Task :=
  { id := "t8", workload_code := "x", docker := emptyDocker,
    status := [], comparison := [] }

/-- C8 counterexample: an absent LLM environment identifier does short-circuit
with `skipped (placeholder)`, but the final classification is `UNKNOWN`, not
`COMING_SOON`, because the coming-soon fallback only fires on a
`PLACEHOLDER`-prefixed identifier or a stored COMING_SOON/PENDING status. -/
theorem llm_absent_unknown_counterexample :
    runVariant execEmpty taskC8 .llm "w" =
      { mean := none, std := none, info := "skipped (placeholder)", executed := [] } ∧
    dictGet (taskRecord execEmpty taskC8 "now" "w").comparison "llm_better" "" =
      "UNKNOWN" := by
  exact ⟨by decide, by decide⟩

/-- The coming-soon classification fires whenever the LLM image is a
placeholder and the LLM metric is absent. -/
theorem buildRecord_coming_soon (t : Task) (now : String) (bm bs hm hs ls : Option ℚ)
    (hp : startsWithStr (upperStr (t.docker.llm_image.getD "")) "PLACEHOLDER" = true) :
    dictGet (buildRecord t now bm bs hm hs none ls).comparison "llm_better" "" =
      "COMING_SOON" := by
  have e : (buildRecord t now bm bs hm hs none ls).comparison =
      comparisonOf t (metricObjOf hm hs) (metricObjOf none ls) := rfl
  rw [e, comparisonOf, metricMean_metricObjOf, metricMean_metricObjOf]
  cases hm with
  | none =>
    simp only [hp, Bool.or_true, if_true]
    exact dictGet_dictSet t.comparison "llm_better" "COMING_SOON" ""
  | some v =>
    simp only [hp, Bool.or_true, if_true]
    exact dictGet_dictSet t.comparison "llm_better" "COMING_SOON" ""

/-- C8 amended: an absent or `PLACEHOLDER`-prefixed (any case) LLM environment
identifier short-circuits the LLM variant with null metrics, status
`skipped (placeholder)` and no executed command; and when the identifier is
`PLACEHOLDER`-prefixed (so no LLM metric exists), the resulting record is
classified `COMING_SOON`.  (For a merely absent identifier the classification
falls through to the stored/`UNKNOWN` default instead.) -/
theorem llm_placeholder_amended (exec : String → String) (t : Task) (now wpy : String)
    (h : llmSkip t = true) :
    runVariant exec t .llm wpy =
      { mean := none, std := none, info := "skipped (placeholder)", executed := [] } ∧
    (startsWithStr (upperStr (t.docker.llm_image.getD "")) "PLACEHOLDER" = true →
      dictGet (taskRecord exec t now wpy).comparison "llm_better" "" = "COMING_SOON") := by
  have h1 : runVariant exec t .llm wpy =
      { mean := none, std := none, info := "skipped (placeholder)", executed := [] } := by
    rw [runVariant]
    simp only [h, if_true]
  refine ⟨h1, ?_⟩
  intro hp
  rw [taskRecord, h1]
  exact buildRecord_coming_soon t now _ _ _ _ _ hp

/-- A task whose LLM environment identifier is a mixed-case placeholder. -/
def taskW8 : Task :=
  { id := "w8", workload_code := "x",
    docker := { emptyDocker with llm_image := some "Placeholder-img" },
    status := [], comparison := [] }

/-- C8 amended witness: a `Placeholder-img` identifier is skipped with no
execution and the record is classified `COMING_SOON`. -/
theorem llm_placeholder_amended_witness :
    runVariant execEmpty taskW8 .llm "w" =
      { mean := none, std := none, info := "skipped (placeholder)", executed := [] } ∧
    dictGet (taskRecord execEmpty taskW8 "now" "w").comparison "llm_better" "" =
      "COMING_SOON" := by
  have h := llm_placeholder_amended execEmpty taskW8 "now" "w" (by decide)
  exact ⟨h.1, h.2 (by decide)⟩

/-! ## C10: metrics are all-or-nothing -/

/-- A stored metric field is either null or has both mean and std present. -/
def metricOk (f : Option MetricObj) : Prop :=
  f = none ∨ ∃ mo : MetricObj, f = some mo ∧ mo.mean.isSome = true ∧ mo.std.isSome = true

theorem parse_mean_std_shape (text : String) :
    (∃ m s : ℚ, parse_mean_std text = (some m, some s)) ∨
      parse_mean_std text = (none, none) := by
  have hfin : ∀ ms ss : List String,
      (∃ m s : ℚ, finishParse ms ss = (some m, some s)) ∨ finishParse ms ss = (none, none) := by
    intro ms ss
    cases hm : ms.getLast? with
    | none => exact Or.inr (by simp only [finishParse, hm])
    | some m =>
      cases hs : ss.getLast? with
      | none => exact Or.inr (by simp only [finishParse, hm, hs])
      | some s =>
        cases hqm : parseFloat m with
        | none => exact Or.inr (by simp only [finishParse, hm, hs, hqm])
        | some qm =>
          cases hqs : parseFloat s with
          | none => exact Or.inr (by simp only [finishParse, hm, hs, hqm, hqs])
          | some qs => exact Or.inl ⟨qm, qs, by simp only [finishParse, hm, hs, hqm, hqs]⟩
  rw [parse_mean_std]
  cases ((findAllMean (extract_scope text)).isEmpty ||
      (findAllStd (extract_scope text)).isEmpty) <;>
    simp only [if_true, if_false, Bool.false_eq_true] <;> apply hfin

theorem runTemplate_shape (exec : String → String) (t : Task) (v : Variant)
    (wpy : String) (tmpl : Option String) :
    ((runTemplate exec t v wpy tmpl).mean = none ∧
      (runTemplate exec t v wpy tmpl).std = none) ∨
    (∃ m s : ℚ, (runTemplate exec t v wpy tmpl).mean = some m ∧
      (runTemplate exec t v wpy tmpl).std = some s ∧
      (runTemplate exec t v wpy tmpl).info = "OK") := by
  rw [runTemplate]
  cases truthyOpt tmpl
  · exact Or.inl ⟨rfl, rfl⟩
  · simp only [if_true]
    rcases parse_mean_std_shape (exec (render (tmpl.getD "") t.id
        (t.docker.base_image.getD "") (t.docker.human_image.getD "")
        (t.docker.llm_image.getD "") wpy)) with ⟨m, s, hp⟩ | hp
    · rw [hp]
      exact Or.inr ⟨m, s, rfl, rfl, rfl⟩
    · rw [hp]
      exact Or.inl ⟨rfl, rfl⟩

theorem runVariant_shape (exec : String → String) (t : Task) (v : Variant) (wpy : String) :
    ((runVariant exec t v wpy).mean = none ∧ (runVariant exec t v wpy).std = none) ∨
    (∃ m s : ℚ, (runVariant exec t v wpy).mean = some m ∧
      (runVariant exec t v wpy).std = some s ∧ (runVariant exec t v wpy).info = "OK") := by
  cases v with
  | base => exact runTemplate_shape exec t .base wpy t.docker.run_base
  | human => exact runTemplate_shape exec t .human wpy (some (resolveHumanTmpl t.docker.run_human))
  | llm =>
    rw [runVariant]
    cases llmSkip t
    · simp only [Bool.false_eq_true, if_false]
      exact runTemplate_shape exec t .llm wpy t.docker.run_llm
    · exact Or.inl ⟨rfl, rfl⟩

theorem metricOk_of_shape (m s : Option ℚ)
    (h : (m = none ∧ s = none) ∨ (∃ a b : ℚ, m = some a ∧ s = some b)) :
    metricOk (metricObjOf m s) := by
  rcases h with ⟨hm, hs⟩ | ⟨a, b, hm, hs⟩
  · rw [hm, hs]
    exact Or.inl rfl
  · rw [hm, hs]
    exact Or.inr ⟨⟨some a, some b⟩, rfl, rfl, rfl⟩

/-- C10: a variant run yields either both mean and std (with status `OK`) or
neither; consequently each metric field of the resulting record is either null
or an object with both mean and std present. -/
theorem variant_metric_all_or_none (exec : String → String) (t : Task) (v : Variant)
    (now wpy : String) :
    (((runVariant exec t v wpy).mean = none ∧ (runVariant exec t v wpy).std = none) ∨
      (∃ m s : ℚ, (runVariant exec t v wpy).mean = some m ∧
        (runVariant exec t v wpy).std = some s ∧ (runVariant exec t v wpy).info = "OK")) ∧
    metricOk (taskRecord exec t now wpy).before ∧
    metricOk (taskRecord exec t now wpy).after_human ∧
    metricOk (taskRecord exec t now wpy).after_llm := by
  refine ⟨runVariant_shape exec t v wpy, ?_, ?_, ?_⟩ <;>
    [exact metricOk_of_shape _ _ ((runVariant_shape exec t .base wpy).imp
      (fun h => ⟨h.1, h.2⟩) (fun ⟨m, s, h1, h2, _⟩ => ⟨m, s, h1, h2⟩));
     exact metricOk_of_shape _ _ ((runVariant_shape exec t .human wpy).imp
      (fun h => ⟨h.1, h.2⟩) (fun ⟨m, s, h1, h2, _⟩ => ⟨m, s, h1, h2⟩));
     exact metricOk_of_shape _ _ ((runVariant_shape exec t .llm wpy).imp
      (fun h => ⟨h.1, h.2⟩) (fun ⟨m, s, h1, h2, _⟩ => ⟨m, s, h1, h2⟩))]

end Bench
